import Mathlib

/-!
# Verification of veneur's CSV/S3 sink and sampler flush semantics

This development shallowly embeds the CSV encoder of veneur's S3 plugin
(`plugins/s3/csv.go`, function `EncodeInterMetricCSV` together with the
`tsvField` schema) and the sampler aggregators (Counter, Gauge, Set, Histo)
exercised by the test suite in the sources.

Modelling conventions:
* Go `float64` values are modelled as rationals (`ℚ`); every numeric value
  appearing in the verified claims is exactly representable, and the spec's
  arithmetic (`value / rate`, `sum / interval`, …) is exact on them.
* Go's `csv.Writer` (package `encoding/csv`, `UseCRLF = false`) is modelled
  by `fieldNeedsQuotes` / `renderField` / `csvWriteRow` below.
* `time.Time` values are modelled as UTC civil dates (`Date`) and Unix
  seconds (`Nat`/`Int`); `time.Time.UTC()` is the identity in this model.
-/

namespace VeneurSpec

/-! ## Go string helpers -/

/-- Model of Go `strings.Join(elems, sep)`: the elements concatenated with
`sep` between consecutive elements. -/
def strJoin (sep : String) : List String → String
  | [] => ""
  | [x] => x
  | x :: y :: xs => x ++ sep ++ strJoin sep (y :: xs)

/-- Model of Go `unicode.IsSpace` (the Unicode White_Space property). -/
def goIsSpace (c : Char) : Bool :=
  c = '\t' || c = '\n' || c = '\x0b' || c = '\x0c' || c = '\r' || c = ' ' ||
  c = '\x85' || c = '\xa0' || c = ' ' ||
  (' ' ≤ c && c ≤ ' ') ||
  c = ' ' || c = ' ' || c = ' ' || c = ' ' || c = '　'

/-! ## Model of Go `encoding/csv.Writer` (writing side, `UseCRLF = false`) -/

/-- Model of `csv.Writer.fieldNeedsQuotes`: a field is quoted when it is the
literal `\.`, contains the delimiter, a double quote, CR or LF, or begins
with a Unicode space character.  The empty field is never quoted. -/
def fieldNeedsQuotes (comma : Char) (field : String) : Bool :=
  if field = "" then false
  else if field = "\\." then true
  else if field.data.any (fun c => c == comma || c == '"' || c == '\r' || c == '\n') then true
  else match field.data with
    | [] => false
    | c :: _ => goIsSpace c

/-- The body of a quoted CSV field with `UseCRLF = false`: each `"` is
doubled, CR and LF are written through unchanged. -/
def csvEscape (field : String) : String :=
  ⟨field.data.flatMap (fun c => if c = '"' then ['"', '"'] else [c])⟩

/-- One field as `csv.Writer.Write` emits it: quoted and escaped when
`fieldNeedsQuotes` holds, verbatim otherwise. -/
def renderField (comma : Char) (field : String) : String :=
  if fieldNeedsQuotes comma field then "\"" ++ csvEscape field ++ "\"" else field

/-- Model of one `csv.Writer.Write(record)` call with `UseCRLF = false`:
the rendered fields joined by the delimiter, terminated by `\n`. -/
def csvWriteRow (comma : Char) (record : List String) : String :=
  strJoin comma.toString (record.map (renderField comma)) ++ "\n"

/-! ## Dates and time formatting -/

/-- A UTC civil date (models the date part of a Go `time.Time`). -/
structure Date where
  year : Nat
  month : Nat
  day : Nat
  deriving DecidableEq

/-- Civil date from a count of days since the Unix epoch (1970-01-01),
standard era-based conversion (as performed by Go's `time` package for
dates on or after the epoch). -/
def civilFromDays (days : Nat) : Date :=
  let z := days + 719468
  let era := z / 146097
  let doe := z % 146097
  let yoe := (doe - doe / 1460 + doe / 36524 - doe / 146096) / 365
  let y := yoe + era * 400
  let doy := doe - (365 * yoe + yoe / 4 - yoe / 100)
  let mp := (5 * doy + 2) / 153
  let d := doy - (153 * mp + 2) / 5 + 1
  let m := if mp < 10 then mp + 3 else mp - 9
  ⟨if m ≤ 2 then y + 1 else y, m, d⟩

/-- The decimal units digit of `n`, as a character. -/
def digit (n : Nat) : Char := Nat.digitChar (n % 10)

/-- A natural number zero-padded to two decimal digits (its value mod 100). -/
def pad2 (n : Nat) : String := ⟨[digit (n / 10), digit n]⟩

/-- A natural number zero-padded to four decimal digits (its value mod 10000). -/
def pad4 (n : Nat) : String :=
  ⟨[digit (n / 1000), digit (n / 100), digit (n / 10), digit n]⟩

/-- Model of `t.UTC().Format(PartitionDateFormat)` where
`PartitionDateFormat = "20060102"`: the UTC date as `YYYYMMDD`
(years up to 9999, the range of the fixed-width layout). -/
def partitionDateFormat (t : Date) : String :=
  pad4 t.year ++ pad2 t.month ++ pad2 t.day

/-! ## The S3 plugin's `InterMetric` encoder (`plugins/s3/csv.go`) -/

/-- The type of a `samplers.InterMetric`.  `counter` and `gauge` are the
types the encoder accepts; `other s` stands for any further metric type
(whose `String()` rendering is `s`). -/
inductive MetricType where
  | counter
  | gauge
  | other (s : String)
  deriving DecidableEq

/-- Model of `samplers.MetricType.String()`. -/
def MetricType.str : MetricType → String
  | .counter => "counter"
  | .gauge => "gauge"
  | .other s => s

/-- The fields of a `samplers.InterMetric` read by `EncodeInterMetricCSV`. -/
structure InterMetric where
  Name : String
  Timestamp : Int
  Value : ℚ
  Tags : List String
  -- the source names this field `Type`, which Lean reserves
  type : MetricType
  deriving DecidableEq

/-- `tsvField` constant `TsvName`.  The `iota` order of the `tsvField`
constants in the source determines the order of the fields in the
resulting TSV row. -/
def TsvName : Nat := 0

/-- `tsvField` constant `TsvTags`. -/
def TsvTags : Nat := 1

/-- `tsvField` constant `TsvMetricType`. -/
def TsvMetricType : Nat := 2

/-- `tsvField` constant `TsvVeneurHostname` (the hostname of the server
flushing the data). -/
def TsvVeneurHostname : Nat := 3

/-- `tsvField` constant `TsvInterval`. -/
def TsvInterval : Nat := 4

/-- `tsvField` constant `TsvTimestamp`. -/
def TsvTimestamp : Nat := 5

/-- `tsvField` constant `TsvValue`. -/
def TsvValue : Nat := 6

/-- `tsvField` constant `TsvPartition` (the `_partition` field required by
the Redshift IncrementalLoader). -/
def TsvPartition : Nat := 7

/-- The number of `tsvField` constants (the length of `tsvSchema`). -/
def tsvFieldCount : Nat := 8

/-- The last `k` decimal digits of `fp`, zero-padded to width `k`
(helper for `formatFloat`). -/
def natDigitsPad : Nat → Nat → String
  | 0, _ => ""
  | k + 1, fp => natDigitsPad k (fp / 10) ++ ⟨[digit fp]⟩

/-- Model of `strconv.FormatFloat(q, 'f', -1, 64)` for rationals with a
terminating decimal expansion (every value in this development): the
shortest plain decimal form, without exponent and without trailing zeros
in the fractional part.  (For a non-terminating rational the fallback
truncates at 18 fractional digits; no such value occurs here.) -/
def formatFloat (q : ℚ) : String :=
  let sign := if q < 0 then "-" else ""
  let n : Nat := q.num.natAbs
  let d : Nat := q.den
  let k := ((List.range 19).find? (fun k => (10 ^ k * n) % d == 0)).getD 18
  let m := 10 ^ k * n / d
  let ip := m / 10 ^ k
  let fp := m % 10 ^ k
  if k = 0 then sign ++ toString ip
  else sign ++ toString ip ++ "." ++ natDigitsPad k fp

/-- The fields array `EncodeInterMetricCSV` builds, keyed by the
`tsvField` constants (mirroring the keyed Go array literal; the textual
order of the keys does not matter). -/
def tsvFields (d : InterMetric) (jsonTags metricType : String) (metricValue : ℚ)
    (partitionDate : Date) (hostName : String) (interval : ℚ)
    (timeFormat : Int → String) : List String :=
  (List.range tsvFieldCount).map fun i =>
    if i = TsvName then d.Name
    else if i = TsvTags then jsonTags
    else if i = TsvMetricType then metricType
    else if i = TsvInterval then formatFloat interval
    else if i = TsvVeneurHostname then hostName
    else if i = TsvValue then formatFloat metricValue
    else if i = TsvTimestamp then timeFormat d.Timestamp
    else if i = TsvPartition then partitionDateFormat partitionDate
    else ""

/-- The row `EncodeInterMetricCSV` writes for the metric `d`, or the error
it returns for an unknown metric type.  Counters are rewritten to `rate`
with `value / interval`; gauges keep their value.  `timeFormat` stands
for `t ↦ time.Unix(t, 0).UTC().Format(layout)` for the caller's layout
string. -/
def interMetricRow (d : InterMetric) (partitionDate : Date) (hostName : String)
    (interval : ℚ) (timeFormat : Int → String) (tags : List String) :
    Except String (List String) :=
  let allTags := tags ++ d.Tags
  let jsonTags := "\x7b" ++ strJoin "," allTags ++ "\x7d"
  match d.type with
  | MetricType.counter =>
      Except.ok (tsvFields d jsonTags "rate" (d.Value / interval)
        partitionDate hostName interval timeFormat)
  | MetricType.gauge =>
      Except.ok (tsvFields d jsonTags "gauge" d.Value
        partitionDate hostName interval timeFormat)
  | t =>
      Except.error ("Encountered an unknown metric type " ++ t.str)

/-- The state of a `csv.Writer` over an in-memory buffer: the delimiter
(`w.Comma`, set by the caller) and the buffered output. -/
structure CSVWriter where
  comma : Char
  buf : String
  deriving DecidableEq

/-- Model of `EncodeInterMetricCSV(d, w, partitionDate, hostName, interval,
timeFormat, tags)`: on an unknown metric type it returns the error without
writing; otherwise it writes exactly one row to `w` and returns `w.Error()`
(always `none` for an in-memory buffer). -/
def EncodeInterMetricCSV (d : InterMetric) (w : CSVWriter) (partitionDate : Date)
    (hostName : String) (interval : ℚ) (timeFormat : Int → String)
    (tags : List String) : CSVWriter × Option String :=
  match interMetricRow d partitionDate hostName interval timeFormat tags with
  | Except.error e => (w, some e)
  | Except.ok fields => (⟨w.comma, w.buf ++ csvWriteRow w.comma fields⟩, none)

/-! ## The sampler aggregators (package `samplers`)

The aggregator implementations are not part of the sources — only their
tests are — so they are modelled from the spec (§3 "Data model",
§4.2 "Aggregators", §4.2 "Flush output ordering for histograms") and
checked against the expectations recorded in those tests.  Flushed output
metrics are modelled without the `time.Now()` timestamp the Go code stamps
them with (wall-clock time is outside the model). -/

/-- One flushed output metric: derived name, tags, `gauge`/`rate` type,
interval in seconds (0 when not meaningful) and value. -/
structure OutputMetric where
  name : String
  tags : List String
  metricType : String
  interval : ℚ
  value : ℚ
  deriving DecidableEq

/-- Modelled from the spec: `samplers.Counter`, a monotonic accumulator of
weighted increments with attributes name, tags and `sum`. -/
structure Counter where
  name : String
  tags : List String
  value : ℚ
  deriving DecidableEq

/-- Modelled from the spec: `NewCounter` starts the sum at zero. -/
def NewCounter (name : String) (tags : List String) : Counter :=
  ⟨name, tags, 0⟩

/-- Modelled from the spec: `Counter.Sample(value, rate)` adds
`value / sample_rate` to the sum. -/
def Counter.Sample (c : Counter) (value sampleRate : ℚ) : Counter :=
  { c with value := c.value + value / sampleRate }

/-- Modelled from the spec: `Counter.Flush(interval)` emits a single
rate-typed output `sum / interval_seconds` with the `interval` field set
to the flush interval in seconds. -/
def Counter.Flush (c : Counter) (intervalSecs : ℚ) : List OutputMetric :=
  [⟨c.name, c.tags, "rate", intervalSecs, c.value / intervalSecs⟩]

/-- Modelled from the spec: `samplers.Gauge`, a last-writer-wins scalar
with attributes name, tags and `last`. -/
structure Gauge where
  name : String
  tags : List String
  value : ℚ
  deriving DecidableEq

/-- Modelled from the spec: `NewGauge` (the stored value starts at zero and
is never flushed before the first sample in any claim considered here). -/
def NewGauge (name : String) (tags : List String) : Gauge :=
  ⟨name, tags, 0⟩

/-- Modelled from the spec: `Gauge.Sample(value, rate)` stores `value`;
the sample rate does not matter for gauges. -/
def Gauge.Sample (g : Gauge) (value _sampleRate : ℚ) : Gauge :=
  { g with value := value }

/-- Modelled from the spec: `Gauge.Flush()` emits one gauge-typed output
whose interval is 0 (not meaningful) and whose value is the last sample. -/
def Gauge.Flush (g : Gauge) : List OutputMetric :=
  [⟨g.name, g.tags, "gauge", 0, g.value⟩]

/-- Modelled from the spec: `samplers.Set` (named `MetricSet` here because
`Set` is taken), an approximate cardinality estimator backed by a
HyperLogLog sketch.  The sketch itself is modelled by the exact sequence
of distinct strings inserted; the spec bounds the HLL estimate within ±1
of this exact cardinality for the set sizes considered. -/
structure MetricSet where
  name : String
  tags : List String
  hll : List String
  deriving DecidableEq

/-- Modelled from the spec: `NewSet` starts with an empty sketch. -/
def NewSet (name : String) (tags : List String) : MetricSet :=
  ⟨name, tags, []⟩

/-- Modelled from the spec: `Set.Sample(value, rate)` inserts the raw
string into the sketch; the sample rate does not matter for sets. -/
def MetricSet.Sample (s : MetricSet) (value : String) (_sampleRate : ℚ) : MetricSet :=
  if value ∈ s.hll then s else { s with hll := s.hll ++ [value] }

/-- Modelled from the spec: `Set.Flush()` emits one gauge-typed output
whose interval is 0 (not meaningful) and whose value is the cardinality
estimate. -/
def MetricSet.Flush (s : MetricSet) : List OutputMetric :=
  [⟨s.name, s.tags, "gauge", 0, (s.hll.length : ℚ)⟩]

/-- Modelled from the spec: `samplers.Histo`.  Per-flush-interval local
stats (`LocalWeight`, `LocalMin`, `LocalMax`, `LocalSum`) next to the
forward-decaying reservoir digest.  `localMin = none` models the initial
`math.Inf(+1)` and `localMax = none` the initial `math.Inf(-1)` (no local
sample yet).  The digest is modelled as the list of `(value, weight)`
centroids it holds — exact for the sample counts in the claims, which stay
far below the reservoir capacity of 1028. -/
structure Histo where
  name : String
  tags : List String
  localWeight : ℚ
  localMin : Option ℚ
  localMax : Option ℚ
  localSum : ℚ
  digest : List (ℚ × ℚ)
  deriving DecidableEq

/-- Modelled from the spec: `NewHist` starts with zero local weight and
sum, `local_min = +∞`, `local_max = -∞` and an empty reservoir. -/
def NewHist (name : String) (tags : List String) : Histo :=
  ⟨name, tags, 0, none, none, 0, []⟩

/-- Modelled from the spec: `Histo.Sample(value, rate)` inserts the value
into the reservoir with weight `1/sample_rate` and scales the local stats
by the same weight. -/
def Histo.Sample (h : Histo) (value sampleRate : ℚ) : Histo :=
  let weight := 1 / sampleRate
  { h with
    localWeight := h.localWeight + weight
    localMin := some (match h.localMin with | none => value | some m => min m value)
    localMax := some (match h.localMax with | none => value | some m => max m value)
    localSum := h.localSum + value * weight
    digest := h.digest ++ [(value, weight)] }

/-- Modelled from the spec: `Histo.Export()` snapshots the reservoir/HLL
structural state for fleet-level merge. -/
def Histo.Export (h : Histo) : List (ℚ × ℚ) :=
  h.digest

/-- Modelled from the spec: `Histo.Combine(snapshot)` merges an exported
reservoir snapshot into the receiver's reservoir; the local per-interval
stats are NOT populated by the merge. -/
def Histo.Combine (h : Histo) (snapshot : List (ℚ × ℚ)) : Histo :=
  { h with digest := h.digest ++ snapshot }

/-- Insert a centroid into a value-sorted centroid list (helper for the
digest's quantile query, which works on the centroids sorted by value). -/
def insertByValue (x : ℚ × ℚ) : List (ℚ × ℚ) → List (ℚ × ℚ)
  | [] => [x]
  | y :: ys => if x.1 < y.1 then x :: y :: ys else y :: insertByValue x ys

/-- The digest's centroids sorted by value (helper for quantile queries). -/
def sortByValue (l : List (ℚ × ℚ)) : List (ℚ × ℚ) :=
  l.foldr insertByValue []

/-- The interpolation loop of the digest's quantile query: walk the sorted
centroids, each covering the weight interval `(wsf, wsf + w]` between the
midpoint bounds `lb` and `ub`, and interpolate linearly inside the centroid
that contains the target weight. -/
def quantileLoop (vmax target : ℚ) : ℚ → ℚ → List (ℚ × ℚ) → ℚ
  | _, _, [] => vmax
  | lb, wsf, c :: rest =>
    let ub := match rest with
      | [] => vmax
      | c2 :: _ => (c.1 + c2.1) / 2
    if target ≤ wsf + c.2 then lb + ((target - wsf) / c.2) * (ub - lb)
    else quantileLoop vmax target ub (wsf + c.2) rest

/-- Modelled from the spec: the reservoir's quantile query — "sort the
reservoir by value and interpolate".  The interpolation is the standard
centroid-digest one (as veneur's digest implements it): the target weight
`q · W` is located among the sorted centroids, whose bounds are the
midpoints between neighbouring centroid values (the minimum and maximum
at the two ends), and the value is interpolated linearly inside the
containing centroid. -/
def digestQuantile (centroids : List (ℚ × ℚ)) (q : ℚ) : ℚ :=
  match sortByValue centroids with
  | [] => 0
  | c :: cs =>
    let totalWeight := ((c :: cs).map Prod.snd).sum
    let vmin := c.1
    let vmax := (cs.getLastD c).1
    quantileLoop vmax (q * totalWeight) vmin 0 (c :: cs)

/-- Modelled from the spec: the configured aggregate set of a histogram
(the `HistogramAggregates` bitmask, one flag per aggregate). -/
structure HistogramAggregates where
  min : Bool
  max : Bool
  median : Bool
  avg : Bool
  count : Bool
  sum : Bool
  deriving DecidableEq

/-- The value of an optional local stat as flushed (the Go code flushes
the stored float; no claim flushes a histogram without samples, where that
float would be infinite). -/
def optStat (o : Option ℚ) : ℚ :=
  o.getD 0

/-- Modelled from the spec: `Histo.Flush(interval, percentiles,
aggregates)` emits one output per configured aggregate in the documented
order `max`, `min`, `sum`, `avg`, `count`, `median`, then one per
percentile in configured order with suffix `.<N>percentile`, N the
percentile × 100 truncated.  `count` is rate-typed
(`local_weight / interval_seconds`, interval = flush seconds); all other
outputs are gauge-typed with interval 0. -/
def Histo.Flush (h : Histo) (intervalSecs : ℚ) (percentiles : List ℚ)
    (aggregates : HistogramAggregates) : List OutputMetric :=
  (if aggregates.max then
    [⟨h.name ++ ".max", h.tags, "gauge", 0, optStat h.localMax⟩] else []) ++
  (if aggregates.min then
    [⟨h.name ++ ".min", h.tags, "gauge", 0, optStat h.localMin⟩] else []) ++
  (if aggregates.sum then
    [⟨h.name ++ ".sum", h.tags, "gauge", 0, h.localSum⟩] else []) ++
  (if aggregates.avg then
    [⟨h.name ++ ".avg", h.tags, "gauge", 0, h.localSum / h.localWeight⟩] else []) ++
  (if aggregates.count then
    [⟨h.name ++ ".count", h.tags, "rate", intervalSecs, h.localWeight / intervalSecs⟩] else []) ++
  (if aggregates.median then
    [⟨h.name ++ ".median", h.tags, "gauge", 0, digestQuantile h.digest (1 / 2)⟩] else []) ++
  percentiles.map (fun p =>
    ⟨h.name ++ "." ++ toString (p.num.natAbs * 100 / p.den) ++ "percentile",
      h.tags, "gauge", 0, digestQuantile h.digest p⟩)

/-! ## The samplers-package CSV encoder (`DDMetric.EncodeCSV`)

`DDMetric.EncodeCSV` itself is not part of the sources — only its test
(`TestEncodeCSV` over `CSVTestCases`) is — so it is modelled from the
spec's CSV-encoding scenario and the expected rows of those test cases. -/

/-- The fields of a `samplers.DDMetric` read by its CSV encoder.  The Go
`Value [1][2]float64` pair is modelled by its two entries `Timestamp`
(Unix seconds) and `Value`. -/
structure DDMetric where
  Name : String
  Timestamp : Nat
  Value : ℚ
  Tags : List String
  MetricType : String
  Hostname : String
  DeviceName : String
  Interval : Int
  deriving DecidableEq

/-- Modelled from the spec: the fixed timestamp layout of the samplers
CSV encoder, `YYYY-MM-DD hh:mm:ss` of the UTC civil time, where — as the
expected rows of `CSVTestCases` pin down (Unix second 1476119058, which is
17:04:18 UTC, renders as `05:04:18`) — the hour is rendered on a 12-hour
clock. -/
def tsvTimeFormat (t : Nat) : String :=
  let date := civilFromDays (t / 86400)
  let secs := t % 86400
  let hh := secs / 3600
  let mi := secs % 3600 / 60
  let ss := secs % 60
  let h12 := (hh + 11) % 12 + 1
  pad4 date.year ++ "-" ++ pad2 date.month ++ "-" ++ pad2 date.day ++ " " ++
    pad2 h12 ++ ":" ++ pad2 mi ++ ":" ++ pad2 ss

/-- Modelled from the spec: `DDMetric.EncodeCSV(w, partitionDate,
hostName)` writes one tab-separated row `Name, Tags ({tag1,tag2,…}),
MetricType, Hostname, VeneurHostname (the override argument), DeviceName,
Interval, Timestamp, Value, Partition (UTC date `YYYYMMDD`)` through the
CSV writer. -/
def DDMetric.EncodeCSV (d : DDMetric) (partitionDate : Date) (hostName : String) : String :=
  csvWriteRow '\t'
    [d.Name,
     "\x7b" ++ strJoin "," d.Tags ++ "\x7d",
     d.MetricType,
     d.Hostname,
     hostName,
     d.DeviceName,
     toString d.Interval,
     tsvTimeFormat d.Timestamp,
     formatFloat d.Value,
     partitionDateFormat partitionDate]


deriving instance DecidableEq for Except

/-! ## Helper lemmas -/

/-- Decimal digit characters are not CSV-special: not the delimiter, not a
quote, not CR/LF, not a backslash and not a Unicode space. -/
theorem digit_not_special (n : Nat) :
    ((digit n == '\t' || digit n == '"' || digit n == '\r' || digit n == '\n') = false) ∧
    goIsSpace (digit n) = false ∧ digit n ≠ '\\' ∧ digit n ≠ '\t' := by
  have h : n % 10 < 10 := Nat.mod_lt _ (by decide)
  have key : ∀ k < 10,
      ((Nat.digitChar k == '\t' || Nat.digitChar k == '"' || Nat.digitChar k == '\r' ||
        Nat.digitChar k == '\n') = false) ∧
      goIsSpace (Nat.digitChar k) = false ∧ Nat.digitChar k ≠ '\\' ∧ Nat.digitChar k ≠ '\t' := by
    decide
  exact key _ h

/-- The characters of a formatted partition date are its eight decimal
digits. -/
theorem partition_data (t : Date) : (partitionDateFormat t).data =
    [digit (t.year / 1000), digit (t.year / 100), digit (t.year / 10), digit t.year,
     digit (t.month / 10), digit t.month, digit (t.day / 10), digit t.day] := rfl

/-- A formatted partition date never needs CSV quoting. -/
theorem partition_needsQuotes_false (t : Date) :
    fieldNeedsQuotes '\t' (partitionDateFormat t) = false := by
  have h1 := fun k => (digit_not_special k).1
  have h3 := fun k => (digit_not_special k).2.2.1
  have h2 := fun k => (digit_not_special k).2.1
  simp [fieldNeedsQuotes, String.ext_iff, partition_data, h1, h2, h3]

/-- A formatted partition date passes through the CSV writer verbatim. -/
theorem renderField_partition (t : Date) :
    renderField '\t' (partitionDateFormat t) = partitionDateFormat t := by
  simp [renderField, partition_needsQuotes_false]

/-- The keyed fields array, written out in the order given by the
`tsvField` constants: Name, Tags, MetricType, VeneurHostname, Interval,
Timestamp, Value, Partition. -/
theorem tsvFields_eq (d : InterMetric) (jsonTags metricType : String) (metricValue : ℚ)
    (partitionDate : Date) (hostName : String) (interval : ℚ) (timeFormat : Int → String) :
    tsvFields d jsonTags metricType metricValue partitionDate hostName interval timeFormat =
      [d.Name, jsonTags, metricType, hostName, formatFloat interval,
       timeFormat d.Timestamp, formatFloat metricValue, partitionDateFormat partitionDate] := by
  simp [tsvFields, tsvFieldCount, TsvName, TsvTags, TsvMetricType, TsvVeneurHostname,
    TsvInterval, TsvTimestamp, TsvValue, TsvPartition,
    show List.range 8 = [0, 1, 2, 3, 4, 5, 6, 7] from rfl]

/-- Every successfully encoded row has the fixed shape
`[Name, Tags, MetricType, VeneurHostname, Interval, Timestamp, Value,
Partition]` for some metric type string and metric value. -/
theorem row_shape (d : InterMetric) (partitionDate : Date) (hostName : String)
    (interval : ℚ) (timeFormat : Int → String) (tags : List String) (row : List String)
    (h : interMetricRow d partitionDate hostName interval timeFormat tags = Except.ok row) :
    ∃ metricType metricValue, row =
      [d.Name, "\x7b" ++ strJoin "," (tags ++ d.Tags) ++ "\x7d", metricType, hostName,
       formatFloat interval, timeFormat d.Timestamp, formatFloat metricValue,
       partitionDateFormat partitionDate] := by
  cases htype : d.type with
  | counter =>
    refine ⟨"rate", d.Value / interval, ?_⟩
    simp [interMetricRow, htype, tsvFields_eq] at h
    exact h.symm
  | gauge =>
    refine ⟨"gauge", d.Value, ?_⟩
    simp [interMetricRow, htype, tsvFields_eq] at h
    exact h.symm
  | other s =>
    exfalso
    simp [interMetricRow, htype] at h

/-- A character of any element of a list occurs in the joined string. -/
theorem mem_strJoin_of_mem {c : Char} {t : String} (sep : String) {l : List String}
    (ht : t ∈ l) (hc : c ∈ t.data) : c ∈ (strJoin sep l).data := by
  induction l with
  | nil => cases ht
  | cons x xs ih =>
    cases xs with
    | nil =>
      rcases List.mem_singleton.mp ht with rfl
      simpa [strJoin] using hc
    | cons y ys =>
      have hrw : strJoin sep (x :: y :: ys) = x ++ sep ++ strJoin sep (y :: ys) := rfl
      rw [hrw, String.data_append, String.data_append]
      rcases List.mem_cons.mp ht with rfl | hmem
      · exact List.mem_append.mpr (Or.inl (List.mem_append.mpr (Or.inl hc)))
      · exact List.mem_append.mpr (Or.inr (ih hmem))

/-- If some tag contains a tab, the brace-wrapped tags field needs CSV
quoting. -/
theorem jsonTags_needsQuotes {allTags : List String} {t : String}
    (ht : t ∈ allTags) (htab : '\t' ∈ t.data) :
    fieldNeedsQuotes '\t' ("\x7b" ++ strJoin "," allTags ++ "\x7d") = true := by
  have hmem : '\t' ∈ ("\x7b" ++ strJoin "," allTags ++ "\x7d").data := by
    rw [String.data_append, String.data_append]
    exact List.mem_append.mpr
      (Or.inl (List.mem_append.mpr (Or.inr (mem_strJoin_of_mem "," ht htab))))
  have hne : ("\x7b" ++ strJoin "," allTags ++ "\x7d") ≠ "" := by
    intro he
    rw [he] at hmem
    simp at hmem
  have hany : (("\x7b" ++ strJoin "," allTags ++ "\x7d").data.any
      (fun c => c == '\t' || c == '"' || c == '\r' || c == '\n')) = true :=
    List.any_eq_true.mpr ⟨'\t', hmem, by decide⟩
  unfold fieldNeedsQuotes
  rw [if_neg hne]
  by_cases hb : ("\x7b" ++ strJoin "," allTags ++ "\x7d") = "\\."
  · rw [if_pos hb]
  · rw [if_neg hb, if_pos hany]

/-- Folding counter samples accumulates the rate-compensated sum. -/
theorem counter_foldl (samples : List (ℚ × ℚ)) : ∀ c0 : Counter,
    samples.foldl (fun c s => c.Sample s.1 s.2) c0 =
      ⟨c0.name, c0.tags, c0.value + (samples.map (fun s => s.1 / s.2)).sum⟩ := by
  induction samples with
  | nil => intro c0; simp
  | cons a t ih =>
    intro c0
    rw [List.foldl_cons, ih]
    simp [Counter.Sample, add_assoc]

/-- Folding gauge samples keeps the last sampled value. -/
theorem gauge_foldl (samples : List (ℚ × ℚ)) : ∀ g0 : Gauge,
    samples.foldl (fun g s => g.Sample s.1 s.2) g0 =
      ⟨g0.name, g0.tags, (samples.map Prod.fst).getLastD g0.value⟩ := by
  induction samples with
  | nil => intro g0; simp
  | cons a t ih =>
    intro g0
    rw [List.foldl_cons, ih]
    simp only [Gauge.Sample, List.map_cons, List.getLastD_cons]

/-- The last of the mapped first components is the first component of the
last element. -/
theorem map_fst_getLastD (l : List (ℚ × ℚ)) (h : l ≠ []) (d : ℚ) :
    (l.map Prod.fst).getLastD d = (l.getLast h).1 := by
  induction l generalizing d with
  | nil => simp at h
  | cons a t ih =>
    cases t with
    | nil => simp
    | cons b u => simpa using ih (by simp) a.1

/-- A sequence of `Combine` calls only appends the snapshots to the
reservoir digest; every other field is untouched. -/
theorem histo_combines_foldl (snapshots : List (List (ℚ × ℚ))) : ∀ h0 : Histo,
    snapshots.foldl Histo.Combine h0 =
      ⟨h0.name, h0.tags, h0.localWeight, h0.localMin, h0.localMax, h0.localSum,
        h0.digest ++ snapshots.flatten⟩ := by
  induction snapshots with
  | nil => intro h0; simp
  | cons a t ih =>
    intro h0
    rw [List.foldl_cons, ih]
    simp [Histo.Combine]

/-! ## Claim theorems -/

/-- C1: encoding the DDMetric with name `a.b.c.max`, value pair
`[1476119058, 100]`, tags `foo:bar`, `baz:quz`, type `gauge`, host
`globalstats`, device `food` and interval 0, with hostname override
`testbox-c3eac9` and any partition date `P`, produces exactly the
tab-separated line
`a.b.c.max␉\x7bfoo:bar,baz:quz\x7d␉gauge␉globalstats␉testbox-c3eac9␉food␉0␉2016-10-10 05:04:18␉100␉P`
terminated by a newline, the timestamp 1476119058 rendered as
`2016-10-10 05:04:18`. -/
theorem encodeCSV_basic (partitionDate : Date) :
    DDMetric.EncodeCSV
      ⟨"a.b.c.max", 1476119058, 100, ["foo:bar", "baz:quz"], "gauge", "globalstats", "food", 0⟩
      partitionDate "testbox-c3eac9" =
    "a.b.c.max\t\x7bfoo:bar,baz:quz\x7d\tgauge\tglobalstats\ttestbox-c3eac9\tfood\t0\t2016-10-10 05:04:18\t100\t"
      ++ partitionDateFormat partitionDate ++ "\n" := by
  simp only [DDMetric.EncodeCSV, csvWriteRow, List.map_cons, List.map_nil, renderField_partition]
  rfl

/-- C2: a histogram that received samples 5, 10, 15, 20, 25 at sample rate
1, flushed over 10 seconds with aggregates min, max, median, avg, count,
sum and percentiles `[0.90]`, emits exactly 7 metrics in the order max,
min, sum, avg, count, median, 90percentile, with `a.b.c.max = 25` (gauge,
interval 0), `a.b.c.min = 5`, `a.b.c.sum = 75`, `a.b.c.avg = 15`,
`a.b.c.count = 0.5` (rate, interval 10), `a.b.c.median = 15` and
`a.b.c.90percentile = 23.75`. -/
theorem histo_flush_full_menu :
    (((((((NewHist "a.b.c" ["a:b"]).Sample 5 1).Sample 10 1).Sample 15 1).Sample 20 1).Sample
        25 1).Flush 10 [9 / 10] ⟨true, true, true, true, true, true⟩) =
      [⟨"a.b.c.max", ["a:b"], "gauge", 0, 25⟩,
       ⟨"a.b.c.min", ["a:b"], "gauge", 0, 5⟩,
       ⟨"a.b.c.sum", ["a:b"], "gauge", 0, 75⟩,
       ⟨"a.b.c.avg", ["a:b"], "gauge", 0, 15⟩,
       ⟨"a.b.c.count", ["a:b"], "rate", 10, 0.5⟩,
       ⟨"a.b.c.median", ["a:b"], "gauge", 0, 15⟩,
       ⟨"a.b.c.90percentile", ["a:b"], "gauge", 0, 23.75⟩] := by
  norm_num [NewHist, Histo.Sample, Histo.Flush, digestQuantile, sortByValue, insertByValue,
    quantileLoop, optStat]
  decide

/-- C3: for every sequence of counter samples with values `v` and positive
sample rates `r`, flushed over a positive interval of `I` seconds, the
counter flushes exactly one rate-typed metric with interval field `I` and
value `(Σ v/r) / I`. -/
theorem counter_flush_rate (name : String) (tags : List String)
    (samples : List (ℚ × ℚ)) (intervalSecs : ℚ)
    (hrates : ∀ s ∈ samples, 0 < s.2) (hI : 0 < intervalSecs) :
    (samples.foldl (fun c s => c.Sample s.1 s.2) (NewCounter name tags)).Flush intervalSecs =
      [⟨name, tags, "rate", intervalSecs,
        (samples.map (fun s => s.1 / s.2)).sum / intervalSecs⟩] := by
  rw [counter_foldl]
  simp [Counter.Flush, NewCounter]

/-- C3 witness: one sample of value 5 at rate 1 flushed over 10 seconds
yields value 0.5; one sample of value 5 at rate 0.5 yields value 1. -/
theorem counter_flush_rate_witness :
    (0 : ℚ) < 10 ∧
    ([((5 : ℚ), (1 : ℚ))].foldl (fun c s => c.Sample s.1 s.2)
        (NewCounter "a.b.c" ["a:b"])).Flush 10 =
      [⟨"a.b.c", ["a:b"], "rate", 10, 0.5⟩] ∧
    ([((5 : ℚ), (0.5 : ℚ))].foldl (fun c s => c.Sample s.1 s.2)
        (NewCounter "a.b.c" ["a:b"])).Flush 10 =
      [⟨"a.b.c", ["a:b"], "rate", 10, 1⟩] := by
  refine ⟨by norm_num, ?_, ?_⟩
  · rw [counter_flush_rate "a.b.c" ["a:b"] [(5, 1)] 10
      (by intro s hs; rw [List.mem_singleton] at hs; subst hs; norm_num) (by norm_num)]
    norm_num
  · rw [counter_flush_rate "a.b.c" ["a:b"] [(5, 0.5)] 10
      (by intro s hs; rw [List.mem_singleton] at hs; subst hs; norm_num) (by norm_num)]
    norm_num

/-- C4: after any sequence of `Combine` calls on a fresh histogram the
local per-interval stats keep their neutral values — `local_weight = 0`,
`local_min = +∞` (`none`), `local_max = -∞` (`none`) — and in general
`Combine` preserves every local stat of its receiver and merges only the
reservoir digest. -/
theorem histo_combine_fresh_locals (name : String) (tags : List String)
    (snapshots : List (List (ℚ × ℚ))) :
    ((snapshots.foldl Histo.Combine (NewHist name tags)).localWeight = 0 ∧
     (snapshots.foldl Histo.Combine (NewHist name tags)).localMin = none ∧
     (snapshots.foldl Histo.Combine (NewHist name tags)).localMax = none) ∧
    ∀ (h : Histo) (snapshot : List (ℚ × ℚ)),
      (h.Combine snapshot).localWeight = h.localWeight ∧
      (h.Combine snapshot).localMin = h.localMin ∧
      (h.Combine snapshot).localMax = h.localMax ∧
      (h.Combine snapshot).localSum = h.localSum ∧
      (h.Combine snapshot).digest = h.digest ++ snapshot := by
  constructor
  · rw [histo_combines_foldl]
    exact ⟨rfl, rfl, rfl⟩
  · intro h snapshot
    exact ⟨rfl, rfl, rfl, rfl, rfl⟩

/-- C5: encoding a counter-typed InterMetric emits a row whose MetricType
field is `rate` and whose Value field is the metric's value divided by the
interval argument; a gauge-typed metric keeps its value unchanged with
MetricType `gauge`. -/
theorem counter_gauge_rows (Name : String) (Timestamp : Int) (Value : ℚ) (Tags : List String)
    (partitionDate : Date) (hostName : String) (interval : ℚ)
    (timeFormat : Int → String) (tags : List String) :
    interMetricRow ⟨Name, Timestamp, Value, Tags, MetricType.counter⟩
        partitionDate hostName interval timeFormat tags =
      Except.ok [Name, "\x7b" ++ strJoin "," (tags ++ Tags) ++ "\x7d", "rate", hostName,
        formatFloat interval, timeFormat Timestamp, formatFloat (Value / interval),
        partitionDateFormat partitionDate] ∧
    interMetricRow ⟨Name, Timestamp, Value, Tags, MetricType.gauge⟩
        partitionDate hostName interval timeFormat tags =
      Except.ok [Name, "\x7b" ++ strJoin "," (tags ++ Tags) ++ "\x7d", "gauge", hostName,
        formatFloat interval, timeFormat Timestamp, formatFloat Value,
        partitionDateFormat partitionDate] := by
  constructor <;> simp [interMetricRow, tsvFields_eq]

/-- C6: every row emitted by the CSV/S3 sink has its fields in exactly the
order Name, Tags, MetricType, VeneurHostname, Interval, Timestamp, Value,
Partition, with the Tags field the comma-joined tag list wrapped in braces
and the Partition field the UTC date `YYYYMMDD`. -/
theorem csv_row_schema (d : InterMetric) (partitionDate : Date) (hostName : String)
    (interval : ℚ) (timeFormat : Int → String) (tags : List String) (row : List String)
    (h : interMetricRow d partitionDate hostName interval timeFormat tags = Except.ok row) :
    ∃ metricType metricValue, row =
      [d.Name, "\x7b" ++ strJoin "," (tags ++ d.Tags) ++ "\x7d", metricType, hostName,
       formatFloat interval, timeFormat d.Timestamp, formatFloat metricValue,
       partitionDateFormat partitionDate] :=
  row_shape d partitionDate hostName interval timeFormat tags row h

/-- C6 witness: the schema instantiated at a concrete gauge metric. -/
theorem csv_row_schema_witness :
    ∃ metricType metricValue,
      ["a.b.c.max", "\x7bfoo:bar,baz:quz\x7d", "gauge", "testbox-c3eac9", "10",
       "2016-10-10 05:04:18", "100", "20161010"] =
      ["a.b.c.max", "\x7bfoo:bar,baz:quz\x7d", metricType, "testbox-c3eac9", "10",
       "2016-10-10 05:04:18", formatFloat metricValue, "20161010"] :=
  csv_row_schema
    ⟨"a.b.c.max", 1476119058, 100, ["foo:bar", "baz:quz"], MetricType.gauge⟩
    ⟨2016, 10, 10⟩ "testbox-c3eac9" 10 (fun _ => "2016-10-10 05:04:18") []
    ["a.b.c.max", "\x7bfoo:bar,baz:quz\x7d", "gauge", "testbox-c3eac9", "10",
     "2016-10-10 05:04:18", "100", "20161010"]
    (by decide)

/-- C7 counterexample: a gauge metric whose tag contains a double quote
but no tab character yields a row with no tab in any field, yet its Tags
field is NOT emitted unquoted — the CSV writer quotes it (and doubles the
inner quote) — refuting the claim that all tab-free rows are emitted
unquoted. -/
theorem quote_tag_quoted_without_tab :
    (interMetricRow ⟨"a.b.c.max", 1476119058, 100, ["foo:b\"ar", "baz:quz"], MetricType.gauge⟩
        ⟨2016, 10, 10⟩ "localhost" 10 (fun _ => "2016-10-10 05:04:18") [] =
      Except.ok ["a.b.c.max", "\x7bfoo:b\"ar,baz:quz\x7d", "gauge", "localhost", "10",
        "2016-10-10 05:04:18", "100", "20161010"]) ∧
    (["a.b.c.max", "\x7bfoo:b\"ar,baz:quz\x7d", "gauge", "localhost", "10",
        "2016-10-10 05:04:18", "100", "20161010"].all
      (fun f => !f.data.any (fun c => c == '\t'))) = true ∧
    renderField '\t' "\x7bfoo:b\"ar,baz:quz\x7d" ≠ "\x7bfoo:b\"ar,baz:quz\x7d" ∧
    renderField '\t' "\x7bfoo:b\"ar,baz:quz\x7d" = "\"\x7bfoo:b\"\"ar,baz:quz\x7d\"" := by
  decide

/-- C7 (amended): when any tag of the encoded metric contains a tab, the
rendered Tags field of the output row is wrapped in double quotes; and any
field that contains no tab, double quote, CR or LF, is not the literal
`\.` and does not begin with a Unicode space is emitted unquoted. -/
theorem tab_tag_quoted (d : InterMetric) (partitionDate : Date) (hostName : String)
    (interval : ℚ) (timeFormat : Int → String) (tags : List String) (row : List String)
    (hrow : interMetricRow d partitionDate hostName interval timeFormat tags = Except.ok row)
    (htab : ∃ t ∈ tags ++ d.Tags, '\t' ∈ t.data) :
    (row.map (renderField '\t')).get? TsvTags =
      some ("\"" ++ csvEscape ("\x7b" ++ strJoin "," (tags ++ d.Tags) ++ "\x7d") ++ "\"") ∧
    ∀ f : String, (∀ c ∈ f.data, c ≠ '\t' ∧ c ≠ '"' ∧ c ≠ '\r' ∧ c ≠ '\n') →
      f ≠ "\\." → goIsSpace (f.data.headD 'a') = false →
      renderField '\t' f = f := by
  obtain ⟨t, ht, htabt⟩ := htab
  constructor
  · obtain ⟨mt, mv, hrow'⟩ :=
      row_shape d partitionDate hostName interval timeFormat tags row hrow
    subst hrow'
    simp [TsvTags, renderField, jsonTags_needsQuotes ht htabt]
  · intro f hchars hne hhead
    have hany : (f.data.any (fun c => c == '\t' || c == '"' || c == '\r' || c == '\n')) = false := by
      rw [List.any_eq_false]
      intro c hcm
      obtain ⟨h1, h2, h3, h4⟩ := hchars c hcm
      simp [h1, h2, h3, h4]
    have hnq : fieldNeedsQuotes '\t' f = false := by
      unfold fieldNeedsQuotes
      by_cases h0 : f = ""
      · rw [if_pos h0]
      · rw [if_neg h0, if_neg hne, if_neg (by simp [hany])]
        cases hd : f.data with
        | nil => rfl
        | cons c cs =>
          have := hhead
          rw [hd] at this
          simpa using this
    simp [renderField, hnq]

/-- C7 witness: the amended statement at the tab-containing tag
`foo:b␉ar` (the Tags cell is the quoted field) and at the plain field
`a.b.c.max` (emitted verbatim). -/
theorem tab_tag_quoted_witness :
    ((["a.b.c.max", "\x7bfoo:b\tar,baz:quz\x7d", "gauge", "localhost", "10",
        "2016-10-10 05:04:18", "100", "20161010"].map (renderField '\t')).get? TsvTags =
      some ("\"" ++ csvEscape ("\x7b" ++ strJoin "," ([] ++ ["foo:b\tar", "baz:quz"]) ++ "\x7d") ++ "\"")) ∧
    renderField '\t' "a.b.c.max" = "a.b.c.max" := by
  have h := tab_tag_quoted
    ⟨"a.b.c.max", 1476119058, 100, ["foo:b\tar", "baz:quz"], MetricType.gauge⟩
    ⟨2016, 10, 10⟩ "localhost" 10 (fun _ => "2016-10-10 05:04:18") []
    ["a.b.c.max", "\x7bfoo:b\tar,baz:quz\x7d", "gauge", "localhost", "10",
      "2016-10-10 05:04:18", "100", "20161010"]
    (by decide) ⟨"foo:b\tar", by decide, by decide⟩
  exact ⟨h.1, h.2 "a.b.c.max" (by decide) (by decide) (by decide)⟩

/-- C8: a set that received the samples `5`, `5`, `123`, `2147483647`,
`-2147483648` (four distinct values) flushes exactly one gauge-typed
metric with interval 0 and value 4 — exactly the distinct count, hence
within the spec's ±1 HLL tolerance. -/
theorem set_flush_cardinality :
    ((((((NewSet "a.b.c" ["a:b"]).Sample "5" 1).Sample "5" 1).Sample "123" 1).Sample
      "2147483647" 1).Sample "-2147483648" 1).Flush =
      [⟨"a.b.c", ["a:b"], "gauge", 0, 4⟩] := by
  decide

/-- C9: for every non-empty sequence of samples sent to a gauge, flush
produces exactly one gauge-typed metric with interval 0 whose value is the
last sampled value. -/
theorem gauge_flush_last (name : String) (tags : List String)
    (samples : List (ℚ × ℚ)) (hne : samples ≠ []) :
    (samples.foldl (fun g s => g.Sample s.1 s.2) (NewGauge name tags)).Flush =
      [⟨name, tags, "gauge", 0, (samples.getLast hne).1⟩] := by
  rw [gauge_foldl]
  simp only [Gauge.Flush, NewGauge]
  rw [map_fst_getLastD samples hne]

/-- C9 witness: samples 3 then 5 flush to the single gauge value 5. -/
theorem gauge_flush_last_witness :
    ([((3 : ℚ), (1 : ℚ)), ((5 : ℚ), (1 : ℚ))].foldl (fun g s => g.Sample s.1 s.2)
        (NewGauge "a.b.c" ["a:b"])).Flush =
      [⟨"a.b.c", ["a:b"], "gauge", 0, 5⟩] := by
  rw [gauge_flush_last "a.b.c" ["a:b"] [(3, 1), (5, 1)] (by decide)]
  rfl

/-- C10: for a metric whose type is neither counter nor gauge,
`EncodeInterMetricCSV` returns a non-nil error and leaves the writer's
buffered output unchanged; for counter and gauge metrics it writes exactly
one row and returns no error. -/
theorem encode_unknown_or_row (d : InterMetric) (w : CSVWriter) (partitionDate : Date)
    (hostName : String) (interval : ℚ) (timeFormat : Int → String) (tags : List String) :
    (d.type ≠ MetricType.counter ∧ d.type ≠ MetricType.gauge →
      ∃ e, EncodeInterMetricCSV d w partitionDate hostName interval timeFormat tags =
        (w, some e)) ∧
    (d.type = MetricType.counter ∨ d.type = MetricType.gauge →
      ∃ row, interMetricRow d partitionDate hostName interval timeFormat tags =
          Except.ok row ∧
        EncodeInterMetricCSV d w partitionDate hostName interval timeFormat tags =
          (⟨w.comma, w.buf ++ csvWriteRow w.comma row⟩, none)) := by
  cases htype : d.type with
  | counter =>
    refine ⟨fun hc => absurd rfl hc.1, fun _ => ?_⟩
    refine ⟨tsvFields d ("\x7b" ++ strJoin "," (tags ++ d.Tags) ++ "\x7d") "rate"
        (d.Value / interval) partitionDate hostName interval timeFormat, ?_, ?_⟩
    · simp [interMetricRow, htype]
    · simp [EncodeInterMetricCSV, interMetricRow, htype]
  | gauge =>
    refine ⟨fun hc => absurd rfl hc.2, fun _ => ?_⟩
    refine ⟨tsvFields d ("\x7b" ++ strJoin "," (tags ++ d.Tags) ++ "\x7d") "gauge"
        d.Value partitionDate hostName interval timeFormat, ?_, ?_⟩
    · simp [interMetricRow, htype]
    · simp [EncodeInterMetricCSV, interMetricRow, htype]
  | other s =>
    constructor
    · intro _
      refine ⟨"Encountered an unknown metric type " ++ s, ?_⟩
      simp [EncodeInterMetricCSV, interMetricRow, htype, MetricType.str]
    · rintro (hc | hc) <;> simp [htype] at hc

/-- C10 witness: an unknown-typed metric is rejected with the writer
untouched, and a gauge metric appends exactly one row. -/
theorem encode_unknown_or_row_witness :
    (∃ e, EncodeInterMetricCSV ⟨"a.b.c", 0, 1, [], MetricType.other "status"⟩ ⟨'\t', ""⟩
        ⟨2016, 10, 10⟩ "h" 10 (fun _ => "T") [] = (⟨'\t', ""⟩, some e)) ∧
    (∃ row, interMetricRow ⟨"a.b.c.max", 1476119058, 100, ["foo:bar"], MetricType.gauge⟩
        ⟨2016, 10, 10⟩ "h" 10 (fun _ => "T") [] = Except.ok row ∧
      EncodeInterMetricCSV ⟨"a.b.c.max", 1476119058, 100, ["foo:bar"], MetricType.gauge⟩
          ⟨'\t', ""⟩ ⟨2016, 10, 10⟩ "h" 10 (fun _ => "T") [] =
        (⟨'\t', "" ++ csvWriteRow '\t' row⟩, none)) := by
  constructor
  · exact (encode_unknown_or_row _ _ _ _ _ _ _).1 (by decide)
  · exact (encode_unknown_or_row _ _ _ _ _ _ _).2 (Or.inr rfl)

end VeneurSpec
